import Mathlib

/-!
Verification of the raindrop tagger (src/tagger.py): a shallow embedding of
the rate limiter, the HTTP client retry logic, the collection-tree builder
and the per-item processing pipeline, with theorems settling the spec claims.

Timestamps (Python floats from time.time()) are modelled as rationals.
Network effects are modelled by oracles: a function giving the outcome of
the n-th attempt of a call, or the outcome of a fetch/AI/write call.
-/

namespace Tagger

/-! ## RateLimiter (src/tagger.py lines 28-71) -/

/-- State of `RateLimiter`: `limit`, `remaining`, `reset_time` and the
sliding window `request_times` of request-issue timestamps. -/
structure RateLimiter where
  limit : Int
  remaining : Int
  reset_time : Int
  request_times : List ℚ
deriving DecidableEq, Repr

/-- Initial state (`RateLimiter.__init__`): limit 120, remaining 120, reset 0, empty window. -/
def initLimiter : RateLimiter := ⟨120, 120, 0, []⟩

/-- A header field as seen by `update_from_headers` after the `in` test and
`int()` parse: `none` = header absent, `some none` = present but the value
does not parse as an integer (`int()` raises `ValueError`),
`some (some n)` = present with value `n`. -/
abbrev HeaderField := Option (Option Int)

/-- Third assignment of the `try` block of `update_from_headers`
(the `X-RateLimit-Reset` field). -/
def updReset (st : RateLimiter) (rst : HeaderField) : RateLimiter :=
  match rst with
  | none => st
  | some none => st
  | some (some n) => ⟨st.limit, st.remaining, n, st.request_times⟩

/-- Second and third assignments of the `try` block of `update_from_headers`:
a `ValueError` on the remaining field aborts before the reset field
(the exception is caught by the `except` clause, so mutations so far persist). -/
def updRemaining (st : RateLimiter) (rem rst : HeaderField) : RateLimiter :=
  match rem with
  | none => updReset st rst
  | some none => st
  | some (some n) => updReset ⟨st.limit, n, st.reset_time, st.request_times⟩ rst

/-- Model of `RateLimiter.update_from_headers`: the three `if key in headers` blocks run
in order inside one `try`; a parse failure on a field stops before the later
fields and is swallowed by `except (ValueError, KeyError): pass`. -/
def update_from_headers (st : RateLimiter) (lim rem rst : HeaderField) : RateLimiter :=
  match lim with
  | none => updRemaining st rem rst
  | some none => st
  | some (some n) => updRemaining ⟨n, st.remaining, st.reset_time, st.request_times⟩ rem rst

/-- The pruning comprehension of `wait_if_needed`:
`[t for t in self.request_times if current_time - t < 60]`. -/
def pruneWindow (now : ℚ) (ts : List ℚ) : List ℚ :=
  ts.filter (fun t => now - t < 60)

/-- Model of `RateLimiter.wait_if_needed`, as a function of the two `time.time()` reads
(`now` at entry, `now2` at the final append; the sleeps happen in between).
Returns the slept duration, if any, and the new state. -/
def wait_if_needed (st : RateLimiter) (now now2 : ℚ) : Option ℚ × RateLimiter :=
  let pruned := pruneWindow now st.request_times
  if 100 ≤ pruned.length then
    let oldest := pruned.headD 0
    let wt := 60 - (now - oldest) + 1
    if 0 < wt then
      (some wt, ⟨st.limit, st.remaining, st.reset_time, [now2]⟩)
    else
      (none, ⟨st.limit, st.remaining, st.reset_time, pruned ++ [now2]⟩)
  else if st.remaining < 10 ∧ 0 < st.remaining then
    (some 2, ⟨st.limit, st.remaining, st.reset_time, pruned ++ [now2]⟩)
  else
    (none, ⟨st.limit, st.remaining, st.reset_time, pruned ++ [now2]⟩)

/-! ## HTTP client retry (`RaindropAPI._make_request`, lines 82-115) -/

/-- Outcome of one HTTP attempt: a 2xx response with (abstracted) body, or an
`HTTPError` carrying the status code and the error body. -/
inductive HttpAttempt where
  | ok (body : String)
  | err (code : Nat) (body : String)
deriving DecidableEq, Repr

/-- Model of `RaindropAPI._make_request` over an oracle `resp` giving the outcome of
each successive attempt (attempt number = current `retry_count`). Returns the
list of backoff sleeps performed (in order) and either the successful body or
the raised error `(code, body)`. On a 429 with `retry_count < 3` it sleeps
`(2 ** retry_count) * 10` seconds and recurses with `retry_count + 1`; any
other error, or a 429 after three retries, is raised. Rate-limiter
bookkeeping (`wait_if_needed` / `update_from_headers`) is modelled
separately and does not influence this control flow. -/
def make_request (resp : Nat → HttpAttempt) (retry_count : Nat) :
    List Nat × Except (Nat × String) String :=
  match resp retry_count with
  | .ok body => ([], .ok body)
  | .err code body =>
    if h : code = 429 ∧ retry_count < 3 then
      let rest := make_request resp (retry_count + 1)
      ((2 ^ retry_count * 10) :: rest.1, rest.2)
    else
      ([], .error (code, body))
termination_by 3 - retry_count
decreasing_by omega

/-! ## Per-item processing (`process_raindrops` body, lines 313-370) -/

/-- A raindrop item as used by the processor: `_id`, `title`, `link`, `tags`. -/
structure Item where
  id : Int
  title : String
  link : String
  tags : List String
deriving DecidableEq, Repr

/-- Run statistics: `total_raindrops`, `success_count`, `error_count`,
`skipped_count`. -/
structure Stats where
  total : Nat
  success : Nat
  error : Nat
  skipped : Nat
deriving DecidableEq, Repr

/-- Observable effect of processing: statistics deltas, number of AI
(`generate_tags`) calls, the `update_raindrop` calls issued, the calls that
succeeded, and the tag list shown/used for each non-skipped item. -/
structure Effects where
  stats : Stats
  aiCalls : Nat
  writeCalls : List (Int × List String)
  writesOk : List (Int × List String)
  usedTags : List (Int × List String)
deriving DecidableEq, Repr

def noEffects : Effects := ⟨⟨0, 0, 0, 0⟩, 0, [], [], []⟩

def addStats (a b : Stats) : Stats :=
  ⟨a.total + b.total, a.success + b.success, a.error + b.error, a.skipped + b.skipped⟩

def addEffects (a b : Effects) : Effects :=
  ⟨addStats a.stats b.stats, a.aiCalls + b.aiCalls, a.writeCalls ++ b.writeCalls,
    a.writesOk ++ b.writesOk, a.usedTags ++ b.usedTags⟩

/-- The mock tag list of the dry-run branch. -/
def mockTags : List String := ["tag1", "tag2", "tag3"]

/-- Merge step `list(set(existing_tags + new_tags))`: merge and deduplicate. A Python
set iterates in an unspecified order; first-occurrence order stands in for
it (no claim depends on the order). -/
def mergeTags (existing newTags : List String) : List String :=
  (existing ++ newTags).eraseDups

/-- Outcome oracle for the AI call: `generate_tags title link existing_tags`
either returns a tag list or raises. -/
abbrev AiOracle := Item → Except String (List String)

/-- Outcome oracle for the write: `update_raindrop raindrop_id tags` either
succeeds or raises. -/
abbrev WriteOracle := Int → List String → Except String Unit

/-- The body of the `for raindrop in items` loop for one item: skip when
`len(existing_tags) >= 3`; else in dry run count a success with the mock
tags and no calls; else call the AI, merge, write, and count success or
error; any exception is caught (`except` at line 368) and counted as error. -/
def process_one (dry_run : Bool) (ai : AiOracle) (wr : WriteOracle) (it : Item) : Effects :=
  if 3 ≤ it.tags.length then
    ⟨⟨1, 0, 0, 1⟩, 0, [], [], []⟩
  else if dry_run then
    ⟨⟨1, 1, 0, 0⟩, 0, [], [], [(it.id, mockTags)]⟩
  else
    match ai it with
    | .error _ => ⟨⟨1, 0, 1, 0⟩, 1, [], [], []⟩
    | .ok newTags =>
      let merged := mergeTags it.tags newTags
      match wr it.id merged with
      | .ok _ => ⟨⟨1, 1, 0, 0⟩, 1, [(it.id, merged)], [(it.id, merged)], [(it.id, merged)]⟩
      | .error _ => ⟨⟨1, 0, 1, 0⟩, 1, [(it.id, merged)], [], []⟩

/-- The `for raindrop in items` loop over a page of items. -/
def process_items (dry_run : Bool) (ai : AiOracle) (wr : WriteOracle) :
    List Item → Effects
  | [] => noEffects
  | it :: rest => addEffects (process_one dry_run ai wr it) (process_items dry_run ai wr rest)

/-! ## Page loop and collection loop (`process_raindrops`, lines 298-384) -/

/-- Outcome oracle for `get_raindrops coll_id page`: the page's `items` list,
or a raised exception. -/
abbrev FetchOracle := Nat → Except String (List Item)

/-- Effects of one collection plus the list of page numbers requested. -/
structure CollEffects where
  effects : Effects
  requested : List Nat
deriving DecidableEq, Repr

/-- The `while True` page loop of `process_raindrops`, started at `page`:
fetch the page (an exception breaks out of the loop for this collection);
an empty `items` breaks; otherwise process the items, increment `page`, and
break once `page >= 100` (the safety limit). -/
def page_loop (dry_run : Bool) (ai : AiOracle) (wr : WriteOracle)
    (fetch : FetchOracle) (page : Nat) : CollEffects :=
  match fetch page with
  | .error _ => ⟨noEffects, [page]⟩
  | .ok items =>
    if items.isEmpty then
      ⟨noEffects, [page]⟩
    else
      let r := process_items dry_run ai wr items
      if h : 100 ≤ page + 1 then
        ⟨r, [page]⟩
      else
        let rest := page_loop dry_run ai wr fetch (page + 1)
        ⟨addEffects r rest.effects, page :: rest.requested⟩
termination_by 100 - page
decreasing_by omega

/-- Model of `process_raindrops` over the flattened collection-id list: each
collection's page loop runs from page 0; the accumulated counters are shared
across collections. `fetchFor` gives the fetch oracle of each collection. -/
def process_raindrops (dry_run : Bool) (ai : AiOracle) (wr : WriteOracle)
    (fetchFor : Int → FetchOracle) : List Int → Effects
  | [] => noEffects
  | c :: rest =>
    addEffects (page_loop dry_run ai wr (fetchFor c) 0).effects
      (process_raindrops dry_run ai wr fetchFor rest)

/-! ## Collection tree (`build_collection_tree` lines 195-224,
`collect_all_collection_ids` lines 240-247) -/

/-- A `parent` field value: a bare identifier, or a reference object whose
`$id` key may be absent (`parent.get("$id")` then yields `None`). An object
without `$id` is modelled as the empty object. -/
inductive ParentRef where
  | bare (n : Int)
  | ref (idField : Option Int)
deriving DecidableEq, Repr

/-- A collection as fetched: `_id` and optional `parent`
(`child.get("parent")`). -/
structure RawColl where
  id : Int
  parent : Option ParentRef
deriving DecidableEq, Repr

/-- Normalization performed by the `children_map` loop: `if parent:` (for an
integer, `0` is falsy; an object is truthy when non-empty, i.e. when it
carries `$id`), then `parent_id = parent["$id"]` or `parent_id = parent`,
then `if parent_id:` (`None` and `0` are falsy). -/
def normParent : Option ParentRef → Option Int
  | none => none
  | some (.bare n) => if n ≠ 0 then some n else none
  | some (.ref none) => none
  | some (.ref (some n)) => if n ≠ 0 then some n else none

/-- Bucket `children_map[pid]`: the nested collections whose normalized parent is
`pid`, in input order (the loop appends them in iteration order). -/
def childrenOf (childs : List RawColl) (pid : Int) : List RawColl :=
  childs.filter (fun c => normParent c.parent = some pid)

/-- The collection tree produced by `add_children`. -/
inductive CTree where
  | node (id : Int) (children : List CTree)

def CTree.nodeId : CTree → Int
  | .node i _ => i

def CTree.kids : CTree → List CTree
  | .node _ ts => ts

/-- Model of `add_children`: attach `children_map.get(coll_id, [])` and recurse into
each child. Python recursion diverges on a cyclic parent relation (the
hierarchy is acyclic by service contract); `fuel` bounds the depth, `none`
standing for the divergence the source does not defend against. -/
def add_children (childs : List RawColl) : Nat → Int → Option CTree
  | 0, _ => none
  | fuel + 1, i =>
    match (childrenOf childs i).mapM (fun c => add_children childs fuel c.id) with
    | none => none
    | some ts => some (.node i ts)

/-- Model of `build_collection_tree`: `[add_children(coll) for coll in root_collections]`. -/
def build_collection_tree (roots childs : List RawColl) (fuel : Nat) :
    Option (List CTree) :=
  roots.mapM (fun c => add_children childs fuel c.id)

/-- Model of `collect_all_collection_ids`: for each collection append its id, then
extend with the recursive traversal of its children. -/
def collect_all_collection_ids : List CTree → List Int
  | [] => []
  | .node i ts :: rest =>
    i :: (collect_all_collection_ids ts ++ collect_all_collection_ids rest)

/-! ## Theorems: rate limiter claims -/

/-- Every entry of the pruned window is younger than 60 seconds, so in
particular its head is. -/
theorem pruneWindow_headD_lt (now : ℚ) (ts : List ℚ)
    (h : pruneWindow now ts ≠ []) : now - (pruneWindow now ts).headD 0 < 60 := by
  have hm : (pruneWindow now ts).headD 0 ∈ pruneWindow now ts := by
    cases hp : pruneWindow now ts with
    | nil => exact absurd hp h
    | cons a l => simp [hp]
  have hpred := List.of_mem_filter hm
  simpa using hpred

/-- C9: update_from_headers never raises for any headers input; each of the
limit, remaining and reset fields, when absent or malformed, leaves its
stored value unchanged (the governor keeps its last-known value for that
field). -/
theorem c9_update_from_headers_resilient (st : RateLimiter) (lim rem rst : HeaderField) :
    ((lim = none ∨ lim = some none) →
      (update_from_headers st lim rem rst).limit = st.limit) ∧
    ((rem = none ∨ rem = some none) →
      (update_from_headers st lim rem rst).remaining = st.remaining) ∧
    ((rst = none ∨ rst = some none) →
      (update_from_headers st lim rem rst).reset_time = st.reset_time) := by
  rcases lim with _ | (_ | ln) <;> rcases rem with _ | (_ | rn) <;>
    rcases rst with _ | (_ | sn) <;>
    simp [update_from_headers, updRemaining, updReset]

/-- Witness for C9: a malformed limit header, an absent remaining header and
a malformed reset header all leave the stored values unchanged. -/
theorem c9_update_from_headers_resilient_witness :
    (update_from_headers initLimiter (some none) none (some none)).limit = initLimiter.limit ∧
    (update_from_headers initLimiter (some none) none (some none)).remaining =
      initLimiter.remaining ∧
    (update_from_headers initLimiter (some none) none (some none)).reset_time =
      initLimiter.reset_time := by
  have h := c9_update_from_headers_resilient initLimiter (some none) none (some none)
  exact ⟨h.1 (Or.inr rfl), h.2.1 (Or.inl rfl), h.2.2 (Or.inr rfl)⟩

/-- C4: wait_if_needed prunes entries older than 60 seconds, then sleeps
`60 - (now - oldest) + 1` and clears the window when the pruned window holds
at least 100 entries, sleeps exactly 2 seconds when the remaining quota is
strictly between 0 and 10, sleeps in no other case, and in every case
appends the current timestamp to the window before returning. -/
theorem c4_wait_if_needed_cases (st : RateLimiter) (now now2 : ℚ) :
    (100 ≤ (pruneWindow now st.request_times).length →
      (wait_if_needed st now now2).1 =
        some (60 - (now - (pruneWindow now st.request_times).headD 0) + 1) ∧
      (wait_if_needed st now now2).2.request_times = [now2]) ∧
    ((pruneWindow now st.request_times).length < 100 →
      0 < st.remaining → st.remaining < 10 →
      (wait_if_needed st now now2).1 = some 2 ∧
      (wait_if_needed st now now2).2.request_times =
        pruneWindow now st.request_times ++ [now2]) ∧
    ((pruneWindow now st.request_times).length < 100 →
      (st.remaining ≤ 0 ∨ 10 ≤ st.remaining) →
      (wait_if_needed st now now2).1 = none ∧
      (wait_if_needed st now now2).2.request_times =
        pruneWindow now st.request_times ++ [now2]) ∧
    (wait_if_needed st now now2).2.request_times.getLast? = some now2 := by
  refine ⟨?_, ?_, ?_, ?_⟩
  · intro h100
    have hne : pruneWindow now st.request_times ≠ [] := by
      intro he
      rw [he] at h100
      simp at h100
    have hlt := pruneWindow_headD_lt now st.request_times hne
    have hpos : 0 < 60 - (now - (pruneWindow now st.request_times).headD 0) + 1 := by
      linarith
    simp only [wait_if_needed]
    rw [if_pos h100, if_pos hpos]
    exact ⟨rfl, rfl⟩
  · intro hlen hpos hlt
    simp only [wait_if_needed]
    rw [if_neg (by omega), if_pos ⟨hlt, hpos⟩]
    exact ⟨rfl, rfl⟩
  · intro hlen hout
    simp only [wait_if_needed]
    rw [if_neg (by omega), if_neg (by omega)]
    exact ⟨rfl, rfl⟩
  · simp only [wait_if_needed]
    split
    · split
      · simp
      · simp
    · split
      · simp
      · simp

/-- Witness for C4: from a fresh limiter with 5 remaining quota and an empty
window, a call sleeps 2 seconds and records the timestamp. -/
theorem c4_wait_if_needed_cases_witness :
    (wait_if_needed ⟨120, 5, 0, []⟩ 1000 1002).1 = some 2 ∧
    (wait_if_needed ⟨120, 5, 0, []⟩ 1000 1002).2.request_times =
      pruneWindow 1000 [] ++ [1002] := by
  have h := c4_wait_if_needed_cases ⟨120, 5, 0, []⟩ 1000 1002
  exact h.2.1 (by simp [pruneWindow]) (by norm_num) (by norm_num)

/-- Folding a sequence of wait_if_needed calls, each given its two clock
reads. -/
def run_limiter (st : RateLimiter) : List (ℚ × ℚ) → RateLimiter
  | [] => st
  | (n1, n2) :: rest => run_limiter (wait_if_needed st n1 n2).2 rest

/-- Single-call window bound: after any wait_if_needed call the stored
window holds at most 100 timestamps. -/
theorem wait_if_needed_window_le (st : RateLimiter) (now now2 : ℚ) :
    (wait_if_needed st now now2).2.request_times.length ≤ 100 := by
  by_cases h100 : 100 ≤ (pruneWindow now st.request_times).length
  · have hne : pruneWindow now st.request_times ≠ [] := by
      intro he
      rw [he] at h100
      simp at h100
    have hlt := pruneWindow_headD_lt now st.request_times hne
    have hpos : 0 < 60 - (now - (pruneWindow now st.request_times).headD 0) + 1 := by
      linarith
    simp only [wait_if_needed]
    rw [if_pos h100, if_pos hpos]
    simp
  · simp only [wait_if_needed]
    rw [if_neg h100]
    split <;> simp <;> omega

/-- C5: whenever the pruned window already holds 100 or more entries at the
start of a call, a sleep occurs; after any call the stored window holds at
most 100 entries (the pruned entries, at most 99 in the no-sleep case, plus
the one appended timestamp); hence across any nonempty sequence of calls the
stored window never exceeds 100 entries. -/
theorem c5_window_bound (st : RateLimiter) (now now2 : ℚ) (calls : List (ℚ × ℚ)) :
    (100 ≤ (pruneWindow now st.request_times).length →
      (wait_if_needed st now now2).1.isSome) ∧
    (wait_if_needed st now now2).2.request_times.length ≤ 100 ∧
    (calls ≠ [] → (run_limiter st calls).request_times.length ≤ 100) := by
  refine ⟨?_, wait_if_needed_window_le st now now2, ?_⟩
  · intro h100
    have hne : pruneWindow now st.request_times ≠ [] := by
      intro he
      rw [he] at h100
      simp at h100
    have hlt := pruneWindow_headD_lt now st.request_times hne
    have hpos : 0 < 60 - (now - (pruneWindow now st.request_times).headD 0) + 1 := by
      linarith
    simp only [wait_if_needed]
    rw [if_pos h100, if_pos hpos]
    rfl
  · induction calls generalizing st with
    | nil => intro h; exact absurd rfl h
    | cons c rest ih =>
      intro _
      rcases c with ⟨n1, n2⟩
      rcases rest with _ | ⟨c2, rest2⟩
      · simpa [run_limiter] using wait_if_needed_window_le st n1 n2
      · simpa [run_limiter] using ih ((wait_if_needed st n1 n2).2) (by simp)

/-- Witness for C5: a window holding 100 fresh timestamps forces a sleep,
and a two-call sequence leaves at most 100 stored timestamps. -/
theorem c5_window_bound_witness :
    (wait_if_needed ⟨120, 120, 0, List.replicate 100 (999 : ℚ)⟩ 1000 1001).1.isSome ∧
    (run_limiter initLimiter [(1, 2), (3, 4)]).request_times.length ≤ 100 := by
  have h := c5_window_bound ⟨120, 120, 0, List.replicate 100 (999 : ℚ)⟩ 1000 1001
    [(1, 2), (3, 4)]
  have h2 := c5_window_bound initLimiter 1000 1001 [(1, 2), (3, 4)]
  refine ⟨h.1 ?_, h2.2.2 (by simp)⟩
  simp [pruneWindow]
  norm_num

/-! ## Theorems: retry claim -/

/-- Unfolding: a successful attempt returns its body with no sleep. -/
theorem make_request_ok (resp : Nat → HttpAttempt) (rc : Nat) (v : String)
    (h : resp rc = .ok v) : make_request resp rc = ([], .ok v) := by
  rw [make_request.eq_def, h]

/-- Unfolding: a 429 with retries left sleeps `2 ^ rc * 10` and recurses. -/
theorem make_request_429_step (resp : Nat → HttpAttempt) (rc : Nat) (b : String)
    (hrc : rc < 3) (h : resp rc = .err 429 b) :
    make_request resp rc =
      (2 ^ rc * 10 :: (make_request resp (rc + 1)).1, (make_request resp (rc + 1)).2) := by
  rw [make_request.eq_def, h]
  dsimp only
  rw [dif_pos ⟨rfl, hrc⟩]

/-- Unfolding: a non-retryable error is raised with its code and body. -/
theorem make_request_raise (resp : Nat → HttpAttempt) (rc : Nat) (c : Nat) (b : String)
    (h : resp rc = .err c b) (hc : ¬(c = 429 ∧ rc < 3)) :
    make_request resp rc = ([], .error (c, b)) := by
  rw [make_request.eq_def, h]
  dsimp only
  rw [dif_neg hc]

/-- At most `3 - retry_count` backoff sleeps ever occur from a given
retry count. -/
theorem make_request_delays_le (resp : Nat → HttpAttempt) :
    ∀ k rc, 3 - rc = k → (make_request resp rc).1.length ≤ k := by
  intro k
  induction k with
  | zero =>
    intro rc hrc
    cases h : resp rc with
    | ok body => simp [make_request_ok resp rc body h]
    | err code body =>
      rw [make_request_raise resp rc code body h (by omega)]
      simp
  | succ n ih =>
    intro rc hrc
    cases h : resp rc with
    | ok body => simp [make_request_ok resp rc body h]
    | err code body =>
      by_cases hc : code = 429 ∧ rc < 3
      · rcases hc with ⟨hc429, hclt⟩
        subst hc429
        rw [make_request_429_step resp rc body hclt h]
        have := ih (rc + 1) (by omega)
        simpa using this
      · rw [make_request_raise resp rc code body h hc]
        simp

/-- C2: a 429 is retried with backoff sleeps of 10, 20 and 40 seconds (in
that order, one before each retry): three consecutive 429s followed by a
success yield exactly the delays [10, 20, 40] and the success's body; a
fourth consecutive 429 is raised with its status and body; any non-429
error is raised immediately with its status and body and with no sleep; and
no call ever performs more than 3 backoff sleeps. -/
theorem c2_retry_policy (resp : Nat → HttpAttempt) :
    (∀ b0 b1 b2 v, resp 0 = .err 429 b0 → resp 1 = .err 429 b1 →
      resp 2 = .err 429 b2 → resp 3 = .ok v →
      make_request resp 0 = ([10, 20, 40], .ok v)) ∧
    (∀ b0 b1 b2 b3, resp 0 = .err 429 b0 → resp 1 = .err 429 b1 →
      resp 2 = .err 429 b2 → resp 3 = .err 429 b3 →
      make_request resp 0 = ([10, 20, 40], .error (429, b3))) ∧
    (∀ c b, c ≠ 429 → resp 0 = .err c b →
      make_request resp 0 = ([], .error (c, b))) ∧
    (make_request resp 0).1.length ≤ 3 := by
  refine ⟨?_, ?_, ?_, make_request_delays_le resp 3 0 rfl⟩
  · intro b0 b1 b2 v h0 h1 h2 h3
    rw [make_request_429_step resp 0 b0 (by norm_num) h0,
      make_request_429_step resp 1 b1 (by norm_num) h1,
      make_request_429_step resp 2 b2 (by norm_num) h2,
      make_request_ok resp 3 v h3]
    norm_num
  · intro b0 b1 b2 b3 h0 h1 h2 h3
    rw [make_request_429_step resp 0 b0 (by norm_num) h0,
      make_request_429_step resp 1 b1 (by norm_num) h1,
      make_request_429_step resp 2 b2 (by norm_num) h2,
      make_request_raise resp 3 429 b3 h3 (by omega)]
    norm_num
  · intro c b hc h0
    rw [make_request_raise resp 0 c b h0 (by simp [hc])]

/-- Witness for C2: a service answering 429 three times then succeeding
produces the delays 10, 20, 40 and the success body. -/
theorem c2_retry_policy_witness :
    make_request
      (fun n => if n < 3 then HttpAttempt.err 429 "slow down" else HttpAttempt.ok "done") 0 =
      ([10, 20, 40], Except.ok "done") :=
  (c2_retry_policy
      (fun n => if n < 3 then HttpAttempt.err 429 "slow down" else HttpAttempt.ok "done")).1
    "slow down" "slow down" "slow down" "done" (by norm_num) (by norm_num) (by norm_num)
    (by norm_num)

/-! ## Theorems: per-item processing claims -/

/-- Sample oracle: the AI call always raises. -/
def aiDown : AiOracle := fun _ => .error "ai down"

/-- Sample oracle: the AI call always returns a fixed tag list. -/
def aiFixed : AiOracle := fun _ => .ok ["web", "news"]

/-- Sample oracle: every write succeeds. -/
def wrGood : WriteOracle := fun _ _ => .ok ()

/-- Sample oracle: every write raises. -/
def wrDown : WriteOracle := fun _ _ => .error "write down"

/-- Sample item with three existing tags. -/
def taggedItem : Item := ⟨7, "a page", "urlA", ["x", "y", "z"]⟩

/-- Sample item with no existing tags. -/
def freshItem : Item := ⟨8, "b page", "urlB", []⟩

/-- C3: an item whose existing tag list has 3 or more entries increments the
skipped counter (and the total counter) only, with no AI call, no
update_raindrop call, and hence no modification of its remote tags, in both
live and simulation mode. -/
theorem c3_skip_invariant (dry_run : Bool) (ai : AiOracle) (wr : WriteOracle)
    (it : Item) (h : 3 ≤ it.tags.length) :
    process_one dry_run ai wr it = ⟨⟨1, 0, 0, 1⟩, 0, [], [], []⟩ := by
  simp [process_one, h]

/-- Witness for C3: the three-tag sample item is skipped with no calls, in
live mode and in simulation mode. -/
theorem c3_skip_invariant_witness :
    process_one false aiFixed wrGood taggedItem = ⟨⟨1, 0, 0, 1⟩, 0, [], [], []⟩ ∧
    process_one true aiFixed wrGood taggedItem = ⟨⟨1, 0, 0, 1⟩, 0, [], [], []⟩ :=
  ⟨c3_skip_invariant false aiFixed wrGood taggedItem (by decide),
    c3_skip_invariant true aiFixed wrGood taggedItem (by decide)⟩

/-- C6: every processed item adds 1 to the total counter and 1 to exactly
one of the skipped, success and error counters; when the AI call raises, or
the write call raises, only the error counter is incremented and no
successful write occurs for the item; and processing continues with the
next item (the loop over the remaining items is unchanged by the failure). -/
theorem c6_error_isolation (dry_run : Bool) (ai : AiOracle) (wr : WriteOracle)
    (it : Item) (rest : List Item) :
    ((process_one dry_run ai wr it).stats.total = 1 ∧
      (process_one dry_run ai wr it).stats.skipped +
        (process_one dry_run ai wr it).stats.success +
        (process_one dry_run ai wr it).stats.error = 1) ∧
    (it.tags.length < 3 → (∃ e, ai it = .error e) →
      (process_one false ai wr it).stats = ⟨1, 0, 1, 0⟩ ∧
      (process_one false ai wr it).writesOk = []) ∧
    (it.tags.length < 3 → ∀ ts, ai it = .ok ts →
      (∃ e, wr it.id (mergeTags it.tags ts) = .error e) →
      (process_one false ai wr it).stats = ⟨1, 0, 1, 0⟩ ∧
      (process_one false ai wr it).writesOk = []) ∧
    process_items dry_run ai wr (it :: rest) =
      addEffects (process_one dry_run ai wr it) (process_items dry_run ai wr rest) := by
  refine ⟨?_, ?_, ?_, rfl⟩
  · by_cases h3 : 3 ≤ it.tags.length
    · simp [process_one, h3]
    · cases dry_run with
      | true => simp [process_one, h3]
      | false =>
        cases hai : ai it with
        | error e => simp [process_one, h3, hai]
        | ok ts =>
          cases hwr : wr it.id (mergeTags it.tags ts) with
          | error e => simp [process_one, h3, hai, hwr]
          | ok u => simp [process_one, h3, hai, hwr]
  · rintro h3 ⟨e, hai⟩
    have h3' : ¬ 3 ≤ it.tags.length := by omega
    simp [process_one, h3', hai]
  · rintro h3 ts hai ⟨e, hwr⟩
    have h3' : ¬ 3 ≤ it.tags.length := by omega
    simp [process_one, h3', hai, hwr]

/-- Witness for C6: for the untagged sample item, a failing AI call and a
failing write call each yield one error and no successful write, and the
loop proceeds with the remaining items. -/
theorem c6_error_isolation_witness :
    ((process_one false aiDown wrGood freshItem).stats = ⟨1, 0, 1, 0⟩ ∧
      (process_one false aiDown wrGood freshItem).writesOk = []) ∧
    ((process_one false aiFixed wrDown freshItem).stats = ⟨1, 0, 1, 0⟩ ∧
      (process_one false aiFixed wrDown freshItem).writesOk = []) := by
  have h1 := c6_error_isolation false aiDown wrGood freshItem []
  have h2 := c6_error_isolation false aiFixed wrDown freshItem []
  exact ⟨h1.2.1 (by decide) ⟨"ai down", rfl⟩,
    h2.2.2.1 (by decide) ["web", "news"] rfl ⟨"write down", rfl⟩⟩

/-- C8: in simulation mode every non-skipped item uses the fixed mock tag
list with no AI call, no write call is ever issued, and the item counts as
a success; consequently on the same items a simulation run has the same
statistics as a live run in which every AI and write call succeeds, with
zero write calls. -/
theorem c8_dry_run (aiSim : AiOracle) (wrSim : WriteOracle) (ai : AiOracle)
    (wr : WriteOracle) (items : List Item)
    (hai : ∀ it, ∃ ts, ai it = .ok ts) (hwr : ∀ i ts, wr i ts = .ok ()) :
    (process_items true aiSim wrSim items).stats = (process_items false ai wr items).stats ∧
    (process_items true aiSim wrSim items).writeCalls = [] ∧
    (process_items true aiSim wrSim items).aiCalls = 0 ∧
    (∀ p ∈ (process_items true aiSim wrSim items).usedTags, p.2 = mockTags) := by
  induction items with
  | nil => simp [process_items, noEffects]
  | cons it rest ih =>
    have hone : (process_one true aiSim wrSim it).stats =
        (process_one false ai wr it).stats ∧
        (process_one true aiSim wrSim it).writeCalls = [] ∧
        (process_one true aiSim wrSim it).aiCalls = 0 ∧
        (∀ p ∈ (process_one true aiSim wrSim it).usedTags, p.2 = mockTags) := by
      by_cases h3 : 3 ≤ it.tags.length
      · simp [process_one, h3]
      · obtain ⟨ts, hts⟩ := hai it
        simp [process_one, h3, hts, hwr it.id (mergeTags it.tags ts)]
    refine ⟨?_, ?_, ?_, ?_⟩
    · simp only [process_items, addEffects, addStats]
      rw [hone.1, ih.1]
    · simp only [process_items, addEffects]
      rw [hone.2.1, ih.2.1]
      rfl
    · simp only [process_items, addEffects]
      rw [hone.2.2.1, ih.2.2.1]
    · simp only [process_items, addEffects]
      intro p hp
      rcases List.mem_append.mp hp with h | h
      · exact hone.2.2.2 p h
      · exact ih.2.2.2 p h

/-- Witness for C8: on a two-item list (one already tagged, one fresh) the
simulation has the statistics of an all-success live run and issues no
write calls. -/
theorem c8_dry_run_witness :
    (process_items true aiDown wrDown [taggedItem, freshItem]).stats =
      (process_items false aiFixed wrGood [taggedItem, freshItem]).stats ∧
    (process_items true aiDown wrDown [taggedItem, freshItem]).writeCalls = [] := by
  have h := c8_dry_run aiDown wrDown aiFixed wrGood [taggedItem, freshItem]
    (fun it => ⟨["web", "news"], rfl⟩) (fun i ts => rfl)
  exact ⟨h.1, h.2.1⟩

/-! ## Theorems: pagination claims -/

/-- Unfolding: a fetch exception breaks the page loop at once. -/
theorem page_loop_error (dry_run : Bool) (ai : AiOracle) (wr : WriteOracle)
    (fetch : FetchOracle) (page : Nat) (e : String) (h : fetch page = .error e) :
    page_loop dry_run ai wr fetch page = ⟨noEffects, [page]⟩ := by
  rw [page_loop.eq_def, h]

/-- Unfolding: an empty page breaks the page loop. -/
theorem page_loop_empty (dry_run : Bool) (ai : AiOracle) (wr : WriteOracle)
    (fetch : FetchOracle) (page : Nat) (h : fetch page = .ok []) :
    page_loop dry_run ai wr fetch page = ⟨noEffects, [page]⟩ := by
  rw [page_loop.eq_def, h]
  simp

/-- Unfolding: a non-empty page below the cap is processed and the loop
moves to the next page. -/
theorem page_loop_step (dry_run : Bool) (ai : AiOracle) (wr : WriteOracle)
    (fetch : FetchOracle) (page : Nat) (items : List Item) (h : fetch page = .ok items)
    (hne : items ≠ []) (hcap : page + 1 < 100) :
    page_loop dry_run ai wr fetch page =
      ⟨addEffects (process_items dry_run ai wr items)
          (page_loop dry_run ai wr fetch (page + 1)).effects,
        page :: (page_loop dry_run ai wr fetch (page + 1)).requested⟩ := by
  rw [page_loop.eq_def, h]
  dsimp only
  rw [if_neg (by simpa using hne), dif_neg (by omega)]

/-- Unfolding: a non-empty page at the cap is processed and the loop stops
(`page` has become 100). -/
theorem page_loop_last (dry_run : Bool) (ai : AiOracle) (wr : WriteOracle)
    (fetch : FetchOracle) (page : Nat) (items : List Item) (h : fetch page = .ok items)
    (hne : items ≠ []) (hcap : 100 ≤ page + 1) :
    page_loop dry_run ai wr fetch page = ⟨process_items dry_run ai wr items, [page]⟩ := by
  rw [page_loop.eq_def, h]
  dsimp only
  rw [if_neg (by simpa using hne), dif_pos hcap]

/-- With non-empty pages up to an empty page `e` below the cap, the loop
started at `s = e - k` requests exactly the pages `s, s+1, ..., e`. -/
theorem page_loop_requested_empty_at (dry_run : Bool) (ai : AiOracle) (wr : WriteOracle)
    (fetch : FetchOracle) (e : Nat) (he : e < 100)
    (hok : ∀ p, p < e → ∃ items, fetch p = .ok items ∧ items ≠ [])
    (hemp : fetch e = .ok []) :
    ∀ k s, s + k = e →
      (page_loop dry_run ai wr fetch s).requested = List.range' s (k + 1) := by
  intro k
  induction k with
  | zero =>
    intro s hs
    have hse : s = e := by omega
    subst hse
    rw [page_loop_empty dry_run ai wr fetch s hemp]
    simp [List.range'_one]
  | succ n ih =>
    intro s hs
    obtain ⟨items, hfi, hne⟩ := hok s (by omega)
    rw [page_loop_step dry_run ai wr fetch s items hfi hne (by omega)]
    dsimp only
    rw [ih (s + 1) (by omega)]
    simp [List.range'_succ]

/-- With only non-empty pages, the loop started at `s = 100 - k` requests
exactly the pages `s, ..., 99` and stops at the safety cap. -/
theorem page_loop_requested_cap (dry_run : Bool) (ai : AiOracle) (wr : WriteOracle)
    (fetch : FetchOracle)
    (hok : ∀ p, p < 100 → ∃ items, fetch p = .ok items ∧ items ≠ []) :
    ∀ k s, s + k = 100 → 0 < k →
      (page_loop dry_run ai wr fetch s).requested = List.range' s k := by
  intro k
  induction k with
  | zero =>
    intro s hs h0
    omega
  | succ n ih =>
    intro s hs h0
    obtain ⟨items, hfi, hne⟩ := hok s (by omega)
    by_cases hcap : 100 ≤ s + 1
    · have hs99 : s = 99 := by omega
      have hn0 : n = 0 := by omega
      subst hs99
      subst hn0
      rw [page_loop_last dry_run ai wr fetch 99 items hfi hne (by norm_num)]
      simp [List.range'_one]
    · rw [page_loop_step dry_run ai wr fetch s items hfi hne (by omega)]
      dsimp only
      rw [ih (s + 1) (by omega) (by omega), List.range'_succ]

/-- C1 (amended): pages are requested in increasing order from page 0; if
the Nth page (1-indexed, page index N-1) is the first empty one and N is at
most 100, exactly N pages are requested — the pages 0 .. N-1, the empty Nth
page included — and the N+1th page (index N) is never requested; if no page
among 0 .. 99 is empty, exactly the 100 pages 0 .. 99 are requested (the
safety cap). -/
theorem c1_pagination_amended (dry_run : Bool) (ai : AiOracle) (wr : WriteOracle)
    (fetch : FetchOracle) :
    (∀ e, e < 100 → (∀ p, p < e → ∃ items, fetch p = .ok items ∧ items ≠ []) →
      fetch e = .ok [] →
      (page_loop dry_run ai wr fetch 0).requested = List.range (e + 1) ∧
      (page_loop dry_run ai wr fetch 0).requested.length = e + 1 ∧
      (e + 1) ∉ (page_loop dry_run ai wr fetch 0).requested) ∧
    ((∀ p, p < 100 → ∃ items, fetch p = .ok items ∧ items ≠ []) →
      (page_loop dry_run ai wr fetch 0).requested = List.range 100 ∧
      (page_loop dry_run ai wr fetch 0).requested.length = 100) := by
  constructor
  · intro e he hok hemp
    have h := page_loop_requested_empty_at dry_run ai wr fetch e he hok hemp e 0 (by omega)
    rw [List.range_eq_range']
    refine ⟨h, ?_, ?_⟩
    · rw [h, List.length_range']
    · rw [h]
      intro hmem
      have := List.mem_range'_1.mp hmem
      omega
  · intro hok
    have h := page_loop_requested_cap dry_run ai wr fetch hok 100 0 (by omega) (by omega)
    rw [List.range_eq_range']
    exact ⟨h, by rw [h, List.length_range']⟩

/-- A fetch oracle with exactly one non-empty page. -/
def onePageFetch : FetchOracle := fun p =>
  if p = 0 then .ok [freshItem] else .ok []

/-- Witness for the amended C1: with one non-empty page and the 2nd page
empty (N = 2), the pages requested are exactly [0, 1]. -/
theorem c1_pagination_amended_witness :
    (page_loop false aiFixed wrGood onePageFetch 0).requested = List.range 2 ∧
    (page_loop false aiFixed wrGood onePageFetch 0).requested.length = 2 := by
  have h := (c1_pagination_amended false aiFixed wrGood onePageFetch).1 1 (by norm_num)
    (by
      intro p hp
      have hp0 : p = 0 := by omega
      subst hp0
      exact ⟨[freshItem], rfl, by simp⟩)
    rfl
  exact ⟨h.1, h.2.1⟩

/-- C1 counterexample: when the 1st page is already empty (N = 1), the loop
still requests that page — 1 request, not N - 1 = 0 as the claim counts. -/
theorem c1_pagination_counterexample :
    (page_loop false aiFixed wrGood (fun _ => Except.ok []) 0).requested.length = 1 ∧
    ¬ (page_loop false aiFixed wrGood (fun _ => Except.ok []) 0).requested.length = 1 - 1 := by
  rw [page_loop_empty false aiFixed wrGood (fun _ => Except.ok []) 0 rfl]
  exact ⟨rfl, by norm_num⟩

/-- Adding no effects on the left is the identity. -/
theorem addEffects_noEffects (x : Effects) : addEffects noEffects x = x := by
  cases x with
  | mk s a wc wo ut =>
    cases s
    simp [addEffects, addStats, noEffects]

/-- C10: a fetch error at any page breaks the page loop for that collection
with no statistics counter incremented for the failure and no further page
of that collection requested; a collection whose first fetch fails
contributes nothing, and the run continues with the remaining collections
exactly as if the failed collection were absent. -/
theorem c10_fetch_error_isolation (dry_run : Bool) (ai : AiOracle) (wr : WriteOracle)
    (fetchFor : Int → FetchOracle) (c : Int) (rest : List Int) :
    (∀ s e, fetchFor c s = .error e →
      page_loop dry_run ai wr (fetchFor c) s = ⟨noEffects, [s]⟩) ∧
    ((∃ e, fetchFor c 0 = .error e) →
      process_raindrops dry_run ai wr fetchFor (c :: rest) =
        process_raindrops dry_run ai wr fetchFor rest) := by
  constructor
  · intro s e h
    exact page_loop_error dry_run ai wr (fetchFor c) s e h
  · rintro ⟨e, h⟩
    show addEffects (page_loop dry_run ai wr (fetchFor c) 0).effects _ = _
    rw [page_loop_error dry_run ai wr (fetchFor c) 0 e h]
    exact addEffects_noEffects _

/-- A per-collection fetch oracle where collection 5 always fails and the
others have one non-empty page. -/
def mixedFetchFor : Int → FetchOracle := fun c =>
  if c = 5 then (fun _ => .error "boom") else onePageFetch

/-- Witness for C10: collection 5 fails at its first fetch; the run over
[5, 6] equals the run over [6] alone. -/
theorem c10_fetch_error_isolation_witness :
    process_raindrops false aiFixed wrGood mixedFetchFor [5, 6] =
      process_raindrops false aiFixed wrGood mixedFetchFor [6] :=
  (c10_fetch_error_isolation false aiFixed wrGood mixedFetchFor 5 [6]).2
    ⟨"boom", by simp [mixedFetchFor]⟩

/-! ## Theorems: collection tree claim -/

/-- A built node carries the id it was built for. -/
theorem add_children_nodeId (childs : List RawColl) (fuel : Nat) (i : Int) (t : CTree)
    (h : add_children childs fuel i = some t) : t.nodeId = i := by
  cases fuel with
  | zero => simp [add_children] at h
  | succ n =>
    simp only [add_children] at h
    cases hm : (childrenOf childs i).mapM (fun c => add_children childs n c.id) with
    | none =>
      rw [hm] at h
      simp at h
    | some ts =>
      rw [hm] at h
      simp only [Option.some.injEq] at h
      subst h
      rfl

/-- A successful `mapM` of `add_children` over a list of collections yields
trees whose root ids are the collections' ids, in order. -/
theorem mapM_add_children_ids (childs : List RawColl) (fuel : Nat) :
    ∀ (l : List RawColl) (ts : List CTree),
      l.mapM (fun c => add_children childs fuel c.id) = some ts →
      ts.map CTree.nodeId = l.map RawColl.id := by
  intro l
  induction l with
  | nil =>
    intro ts h
    simp only [List.mapM_nil, Option.pure_def, Option.some.injEq] at h
    subst h
    simp
  | cons c l ih =>
    intro ts h
    simp only [List.mapM_cons, Option.pure_def, Option.bind_eq_bind,
      Option.bind_eq_some, Option.some.injEq] at h
    obtain ⟨t, ht, ts', hts', rfl⟩ := h
    simp only [List.map_cons]
    rw [add_children_nodeId childs fuel c.id t ht, ih ts' hts']

/-- The children attached to a built node are exactly the nested collections
whose normalized parent is the node's id, in input order. -/
theorem add_children_kids (childs : List RawColl) (fuel : Nat) (i : Int) (t : CTree)
    (h : add_children childs fuel i = some t) :
    t.kids.map CTree.nodeId = (childrenOf childs i).map RawColl.id := by
  cases fuel with
  | zero => simp [add_children] at h
  | succ n =>
    simp only [add_children] at h
    cases hm : (childrenOf childs i).mapM (fun c => add_children childs n c.id) with
    | none =>
      rw [hm] at h
      simp at h
    | some ts =>
      rw [hm] at h
      simp only [Option.some.injEq] at h
      subst h
      exact mapM_add_children_ids childs n (childrenOf childs i) ts hm

/-- C7: both parent-reference forms (bare identifier, or object carrying
the identifier under `$id`) normalize to the bare identifier before lookup;
a built tree lists the root collections in their original input order; every
built collection carries as children exactly the nested collections whose
normalized parent is its id, in input order; and the companion traversal is
pre-order — each parent before its children, siblings in input order. -/
theorem c7_collection_tree (roots childs : List RawColl) (fuel : Nat) :
    (∀ n : Int, n ≠ 0 →
      normParent (some (.bare n)) = some n ∧
      normParent (some (.ref (some n))) = some n) ∧
    (∀ ts, build_collection_tree roots childs fuel = some ts →
      ts.map CTree.nodeId = roots.map RawColl.id) ∧
    (∀ i t, add_children childs fuel i = some t →
      t.nodeId = i ∧
      t.kids.map CTree.nodeId = (childrenOf childs i).map RawColl.id) ∧
    (∀ (i : Int) (ts rest : List CTree),
      collect_all_collection_ids (CTree.node i ts :: rest) =
        i :: (collect_all_collection_ids ts ++ collect_all_collection_ids rest)) := by
  refine ⟨?_, ?_, ?_, ?_⟩
  · intro n hn
    constructor <;> simp [normParent, hn]
  · intro ts h
    exact mapM_add_children_ids childs fuel roots ts h
  · intro i t h
    exact ⟨add_children_nodeId childs fuel i t h, add_children_kids childs fuel i t h⟩
  · intro i ts rest
    simp [collect_all_collection_ids]

/-- Sample input: two root collections. -/
def sampleRoots : List RawColl := [⟨1, none⟩, ⟨4, none⟩]

/-- Sample input: two nested collections, one with a bare parent id, one
with an object parent reference. -/
def sampleChilds : List RawColl := [⟨2, some (.bare 1)⟩, ⟨3, some (.ref (some 2))⟩]

/-- The tree built from the sample input. -/
def sampleForest : List CTree :=
  [.node 1 [.node 2 [.node 3 []]], .node 4 []]

/-- Witness for C7: on the sample input the built forest lists the roots in
input order, node 1 has exactly the nested collection 2 as its child, and
the traversal of the sample forest is the pre-order [1, 2, 3, 4]. -/
theorem c7_collection_tree_witness :
    sampleForest.map CTree.nodeId = sampleRoots.map RawColl.id ∧
    (CTree.node 1 [CTree.node 2 [CTree.node 3 []]]).kids.map CTree.nodeId =
      (childrenOf sampleChilds 1).map RawColl.id ∧
    collect_all_collection_ids sampleForest = [1, 2, 3, 4] := by
  have h := c7_collection_tree sampleRoots sampleChilds 3
  refine ⟨h.2.1 sampleForest rfl,
    (h.2.2.1 1 (CTree.node 1 [CTree.node 2 [CTree.node 3 []]]) rfl).2, ?_⟩
  show collect_all_collection_ids
      (CTree.node 1 [CTree.node 2 [CTree.node 3 []]] :: [CTree.node 4 []]) = [1, 2, 3, 4]
  rw [h.2.2.2 1 [CTree.node 2 [CTree.node 3 []]] [CTree.node 4 []]]
  simp [collect_all_collection_ids]

end Tagger
